import Mathlib

/-!
Verification development for the WhyNot causal-graph demonstration
(examples/causal_inference/graphical_methods.ipynb).

The notebook defines the user functions of a Lotka-Volterra
DynamicsExperiment (state sampler, soft threshold, confounded propensity
scorer, covariate observer, outcome extractor), runs the experiment with
num_samples = 100 and causal_graph = True, inspects the resulting graph,
and exports a prepared copy to a GML file for DoWhy.

The user functions are embedded directly from the notebook source.  The
library internals (run executor, causal-graph builder, GML writer) are not
part of the repository fragment; they are modelled from the specification,
with the recorded notebook outputs as ground truth where those outputs pin
the behaviour down.
-/

namespace WhyNot

/-- A Lotka-Volterra simulator state: `wn.lotka_volterra.State(rabbits=..., foxes=...)`.
The scalar type is a parameter so the same definition serves the real-valued
simulation and executable instances. -/
structure State (α : Type) where
  rabbits : α
  foxes : α
deriving DecidableEq, Repr

/-- The field-value list of a state, as returned by the Python
`state.values()` call: field order rabbits, foxes. -/
def State.values {α : Type} (s : State α) : List α :=
  [s.rabbits, s.foxes]

/-- A trajectory is the ordered sequence of states indexed 0..end_time,
one per simulator step. -/
def Trajectory (α : Type) : Type := List (State α)

/-- The index `max(intervention.time - 1, 0)` computed by `covariate_observer`,
with Python integer semantics (the subtraction can go below zero before the
max is taken). -/
def prevIndex (time : Nat) : Nat :=
  (max ((time : Int) - 1) 0).toNat

/-- Embedding of the notebook function `covariate_observer(run, intervention)`:
reads `run[max(intervention.time - 1, 0)].values()` and
`run[intervention.time].values()` and concatenates them.  Indexing a list
out of range is a failure, hence the `Option` result. -/
def covariate_observer {α : Type} (run : Trajectory α) (time : Nat) :
    Option (List α) :=
  match (run : List (State α)).get? (prevIndex time),
        (run : List (State α)).get? time with
  | some prev_state, some curr_state => some (prev_state.values ++ curr_state.values)
  | _, _ => none

/-- Embedding of the notebook function `outcome_extractor(run, config)`:
the final fox population `run[config.end_time].foxes`. -/
def outcome_extractor {α : Type} (run : Trajectory α) (end_time : Nat) :
    Option α :=
  ((run : List (State α)).get? end_time).map State.foxes

/-- Embedding of the notebook function `soft_threshold(x, threshold, r=20)`:
a continuous relaxation of the threshold function,
`1. / (np.exp(r * (threshold - x)) + 1)`. -/
noncomputable def soft_threshold (x threshold r : ℝ) : ℝ :=
  1 / (Real.exp (r * (threshold - x)) + 1)

/-- Embedding of the notebook function
`confounded_propensity_scores(untreated_run, intervention)`:
`0.3 + 0.4 * (1. - soft_threshold(untreated_run[intervention.time].foxes, threshold=7))`,
with the default sharpness `r = 20`. -/
noncomputable def confounded_propensity_scores (untreated_run : Trajectory ℝ)
    (time : Nat) : Option ℝ :=
  ((untreated_run : List (State ℝ)).get? time).map
    (fun s => 0.3 + 0.4 * (1 - soft_threshold s.foxes 7 20))

/-- The soft threshold lies strictly between 0 and 1 for every real input. -/
theorem soft_threshold_mem_Ioo (x threshold r : ℝ) :
    0 < soft_threshold x threshold r ∧ soft_threshold x threshold r < 1 := by
  unfold soft_threshold
  have hexp : 0 < Real.exp (r * (threshold - x)) := Real.exp_pos _
  constructor
  · positivity
  · rw [div_lt_one (by linarith)]
    linarith

/-- C8: For every real fox-population input, the propensity score returned by
confounded_propensity_scores lies in the open interval (0.3, 0.7), hence in
[0, 1]: both treatment arms always have positive probability, satisfying the
experiment invariant that the propensity scorer returns a value in [0, 1]. -/
theorem confounded_propensity_scores_range (untreated_run : Trajectory ℝ)
    (time : Nat) (p : ℝ)
    (h : confounded_propensity_scores untreated_run time = some p) :
    (3 / 10 : ℝ) < p ∧ p < 7 / 10 ∧ 0 ≤ p ∧ p ≤ 1 := by
  unfold confounded_propensity_scores at h
  rcases Option.map_eq_some'.1 h with ⟨s, _, hval⟩
  obtain ⟨h0, h1⟩ := soft_threshold_mem_Ioo s.foxes 7 20
  subst hval
  norm_num
  constructor
  · nlinarith
  constructor
  · nlinarith
  constructor
  · nlinarith
  · nlinarith

/-- Witness for C8: the propensity score of a concrete one-state run. -/
theorem confounded_propensity_scores_range_witness :
    confounded_propensity_scores [State.mk (0 : ℝ) 0] 0 =
      some (0.3 + 0.4 * (1 - soft_threshold 0 7 20)) ∧
    ((3 / 10 : ℝ) < 0.3 + 0.4 * (1 - soft_threshold 0 7 20) ∧
     0.3 + 0.4 * (1 - soft_threshold 0 7 20) < 7 / 10 ∧
     (0 : ℝ) ≤ 0.3 + 0.4 * (1 - soft_threshold 0 7 20) ∧
     0.3 + 0.4 * (1 - soft_threshold 0 7 20) ≤ 1) :=
  ⟨rfl, confounded_propensity_scores_range [State.mk 0 0] 0 _ rfl⟩

/-- C10: covariate_observer indexes the trajectory at max(time - 1, 0) and at
time, so whenever `time` lies in [0, end_time] and the trajectory has
end_time + 1 states, both accesses are in bounds and the observation
succeeds; in the edge case time = 0 the covariate vector duplicates the
step-0 state instead of indexing before the start of the run. -/
theorem covariate_observer_in_bounds {α : Type} (run : Trajectory α)
    (end_time time : Nat) (htime : time ≤ end_time)
    (hlen : (run : List (State α)).length = end_time + 1) :
    (prevIndex time < (run : List (State α)).length ∧
     time < (run : List (State α)).length ∧
     ∃ l, covariate_observer run time = some l) ∧
    (time = 0 → ∃ s, (run : List (State α)).get? 0 = some s ∧
      covariate_observer run time = some (s.values ++ s.values)) := by
  have hprev : prevIndex time ≤ time := by
    unfold prevIndex
    omega
  have h1 : time < (run : List (State α)).length := by omega
  have h0 : prevIndex time < (run : List (State α)).length := by omega
  have hprevGet : (run : List (State α)).get? (prevIndex time) =
      some ((run : List (State α)).get ⟨prevIndex time, h0⟩) :=
    List.get?_eq_get h0
  have hcurrGet : (run : List (State α)).get? time =
      some ((run : List (State α)).get ⟨time, h1⟩) :=
    List.get?_eq_get h1
  refine ⟨⟨h0, h1,
    ⟨((run : List (State α)).get ⟨prevIndex time, h0⟩).values ++
      ((run : List (State α)).get ⟨time, h1⟩).values, ?_⟩⟩, ?_⟩
  · unfold covariate_observer
    rw [hprevGet, hcurrGet]
  · intro ht0
    subst ht0
    have hp0 : prevIndex 0 = 0 := by decide
    refine ⟨(run : List (State α)).get ⟨0, h1⟩, hcurrGet, ?_⟩
    unfold covariate_observer
    rw [hp0, hcurrGet]

/-- Witness for C10: a concrete length-1 trajectory observed at time 0. -/
theorem covariate_observer_in_bounds_witness :
    ((0 : Nat) ≤ 0 ∧ ([State.mk (1 : Nat) 2] : List (State Nat)).length = 0 + 1) ∧
    ((prevIndex 0 < ([State.mk (1 : Nat) 2] : List (State Nat)).length ∧
      0 < ([State.mk (1 : Nat) 2] : List (State Nat)).length ∧
      ∃ l, covariate_observer ([State.mk (1 : Nat) 2] : Trajectory Nat) 0 = some l) ∧
     (0 = 0 → ∃ s, ([State.mk (1 : Nat) 2] : List (State Nat)).get? 0 = some s ∧
       covariate_observer ([State.mk (1 : Nat) 2] : Trajectory Nat) 0 =
         some (s.values ++ s.values))) :=
  ⟨⟨le_refl 0, rfl⟩,
   covariate_observer_in_bounds ([State.mk (1 : Nat) 2] : Trajectory Nat) 0 0
     (le_refl 0) rfl⟩

/-! ## Causal-graph model

The graph builder itself lives in the whynot library, outside this
repository fragment; it is modelled from the specification (spec sections
3 and 4.2) together with the recorded notebook outputs, which pin down the
node naming, the node ordering, the observed markings and the Treatment and
Outcome in-edges for the demonstration experiment. -/

/-- A node of the causal graph: a state variable at a time step, a
configuration parameter at a time step, or the synthetic Treatment and
Outcome nodes. -/
inductive CNode where
  | stateNode (v : String) (t : Nat)
  | paramNode (p : String) (t : Nat)
  | treatment
  | outcome
deriving DecidableEq, Repr

/-- The string identifier of a node, as printed by the notebook:
`rabbits_0`, `PARAM:fox_growth_0`, `Treatment`, `Outcome`. -/
def nodeName : CNode → String
  | .stateNode v t => v ++ "_" ++ toString t
  | .paramNode p t => "PARAM:" ++ p ++ "_" ++ toString t
  | .treatment => "Treatment"
  | .outcome => "Outcome"

/-- Modelled from the spec: a directed causal graph with a per-node
`observed` attribute (the strings `yes` / `no`) and the graph-level
`covariate_names` attribute (absent once deleted). -/
structure CGraph where
  nodes : List (CNode × String)
  edges : List (CNode × CNode)
  covariate_names : Option (List String)
deriving DecidableEq, Repr

instance : Inhabited CGraph := ⟨⟨[], [], none⟩⟩

/-- The in-edge sources of a node. -/
def inEdges (g : CGraph) (n : CNode) : List CNode :=
  (g.edges.filter (fun e => decide (e.2 = n))).map Prod.fst

/-- The nodes contributed by one time step, in the order the notebook
prints them: rabbits, foxes, then the four Lotka-Volterra configuration
parameters. -/
def stepNodes (t : Nat) : List CNode :=
  [.stateNode "rabbits" t, .stateNode "foxes" t,
   .paramNode "rabbit_growth" t, .paramNode "rabbit_death" t,
   .paramNode "fox_death" t, .paramNode "fox_growth" t]

/-- Modelled from the spec: node list of the causal graph — every state
variable and every configuration parameter gets a distinct node per time
step, followed by the synthetic Treatment and Outcome nodes (matching the
first six and last two nodes printed by the notebook). -/
def graphNodes (end_time : Nat) : List CNode :=
  (List.range end_time).flatMap stepNodes ++
    [.stateNode "rabbits" end_time, .stateNode "foxes" end_time,
     .treatment, .outcome]

/-- Modelled from the spec: dependency edges of one simulator step — the
dynamics are fully connected, so both state variables at step t feed both
state variables at step t + 1, and the step-t parameter nodes feed the
state variable whose update reads them. -/
def stepEdges (t : Nat) : List (CNode × CNode) :=
  [(.stateNode "rabbits" t, .stateNode "rabbits" (t + 1)),
   (.stateNode "foxes" t, .stateNode "rabbits" (t + 1)),
   (.stateNode "rabbits" t, .stateNode "foxes" (t + 1)),
   (.stateNode "foxes" t, .stateNode "foxes" (t + 1)),
   (.paramNode "rabbit_growth" t, .stateNode "rabbits" (t + 1)),
   (.paramNode "rabbit_death" t, .stateNode "rabbits" (t + 1)),
   (.paramNode "fox_death" t, .stateNode "foxes" (t + 1)),
   (.paramNode "fox_growth" t, .stateNode "foxes" (t + 1))]

/-- All simulator-dynamics edges over the run 0..end_time. -/
def dynamicsEdges (end_time : Nat) : List (CNode × CNode) :=
  (List.range end_time).flatMap stepEdges

/-- The ordered covariate-name list: the names of the nodes whose values
`covariate_observer` concatenates, in concatenation order — the full state
at `max(time - 1, 0)` followed by the full state at `time`. -/
def covariateNames (time : Nat) : List String :=
  ["rabbits_" ++ toString (prevIndex time), "foxes_" ++ toString (prevIndex time),
   "rabbits_" ++ toString time, "foxes_" ++ toString time]

/-- Modelled from the spec: the `observed` node attribute.  Per the recorded
notebook output, the nodes marked `yes` are exactly the covariate nodes
together with the Treatment and Outcome nodes (which appear as observed
columns of the dataset); every other node is marked `no`. -/
def observedAttr (time : Nat) (n : CNode) : String :=
  if nodeName n ∈ covariateNames time ∨ n = .treatment ∨ n = .outcome then "yes"
  else "no"

/-- Modelled from the spec: the causal graph built for the Lotka-Volterra
demonstration experiment with intervention time `time` and horizon
`end_time`.  Treatment has its in-edge from the node the propensity scorer
reads (foxes at `time`); Outcome from the node the outcome extractor reads
(foxes at `end_time`); `covariate_names` holds the covariate column names
in `covariate_observer` order. -/
def buildGraph (time end_time : Nat) : CGraph :=
  ⟨(graphNodes end_time).map (fun n => (n, observedAttr time n)),
   dynamicsEdges end_time ++
     [(.stateNode "foxes" time, .treatment),
      (.stateNode "foxes" end_time, .outcome)],
   some (covariateNames time)⟩

/-- The time step a node lives at, for the no-backward-edge invariant:
Treatment sits at the intervention step, Outcome at the final step. -/
def stepOf (time end_time : Nat) : CNode → Nat
  | .stateNode _ t => t
  | .paramNode _ t => t
  | .treatment => time
  | .outcome => end_time

/-! ## Traced values

The whynot library builds the graph by tracing execution through a thinly
wrapped numpy: every arithmetic operation propagates the set of graph nodes
the result was computed from.  The notebook user functions are run here over
traced scalars to compute exactly which nodes they read. -/

/-- A traced scalar: a real value together with the names of the graph
nodes it was computed from. -/
structure Traced where
  val : ℝ
  deps : List String

noncomputable instance : Add Traced :=
  ⟨fun a b => ⟨a.val + b.val, a.deps ++ b.deps⟩⟩

noncomputable instance : Sub Traced :=
  ⟨fun a b => ⟨a.val - b.val, a.deps ++ b.deps⟩⟩

noncomputable instance : Mul Traced :=
  ⟨fun a b => ⟨a.val * b.val, a.deps ++ b.deps⟩⟩

noncomputable instance : Div Traced :=
  ⟨fun a b => ⟨a.val / b.val, a.deps ++ b.deps⟩⟩

/-- A traced constant: no dependencies. -/
noncomputable def Traced.const (x : ℝ) : Traced := ⟨x, []⟩

/-- Traced `np.exp`. -/
noncomputable def Traced.exp (a : Traced) : Traced := ⟨Real.exp a.val, a.deps⟩

/-- The notebook function `soft_threshold` run over traced scalars. -/
noncomputable def soft_thresholdT (x threshold r : Traced) : Traced :=
  Traced.const 1 / (Traced.exp (r * (threshold - x)) + Traced.const 1)

/-- The notebook function `confounded_propensity_scores` run over traced
scalars: reads `untreated_run[intervention.time].foxes` only. -/
noncomputable def confounded_propensity_scoresT
    (untreated_run : Trajectory Traced) (time : Nat) : Option Traced :=
  ((untreated_run : List (State Traced)).get? time).map
    (fun s =>
      Traced.const 0.3 +
        Traced.const 0.4 *
          (Traced.const 1 - soft_thresholdT s.foxes (Traced.const 7) (Traced.const 20)))

/-- A trajectory of traced states where each scalar is tagged with the name
of its own graph node, so the deps of a user-function result are exactly
the nodes that function reads. -/
noncomputable def taggedRun (n : Nat) : Trajectory Traced :=
  (List.range n).map (fun t =>
    State.mk (Traced.mk 0 ["rabbits_" ++ toString t])
      (Traced.mk 0 ["foxes_" ++ toString t]))

/-- C3: In the demonstration experiment the Treatment node has exactly the
in-edge foxes_3 → Treatment, because confounded_propensity_scores reads only
untreated_run[3].foxes, and the Outcome node has exactly the in-edge
foxes_6 → Outcome, because outcome_extractor reads only run[6].foxes. -/
theorem demo_treatment_outcome_in_edges :
    inEdges (buildGraph 3 6) CNode.treatment = [CNode.stateNode "foxes" 3] ∧
    inEdges (buildGraph 3 6) CNode.outcome = [CNode.stateNode "foxes" 6] ∧
    (confounded_propensity_scoresT (taggedRun 7) 3).map Traced.deps =
      some ["foxes_3"] ∧
    (outcome_extractor (taggedRun 7) 6).map Traced.deps = some ["foxes_6"] :=
  ⟨by decide, by decide, rfl, rfl⟩

/-- C1 counterexample: the Treatment node of the demonstration graph carries
`observed = yes` (as the recorded notebook output shows), contradicting the
claim that every node outside the four covariate nodes has `observed = no`. -/
theorem demo_treatment_observed_yes :
    ((buildGraph 3 6).nodes.filter
        (fun p => decide (p.1 = CNode.treatment))).map Prod.snd = ["yes"] := by
  decide

/-- C1 (amended): in the demonstration graph the nodes with
`observed = yes` are exactly rabbits_2, foxes_2, rabbits_3, foxes_3 —
the nodes whose values covariate_observer returns, as the traced run
confirms — together with the Treatment and Outcome nodes; every parameter
node and every other state node has `observed = no`. -/
theorem demo_observed_nodes :
    ((buildGraph 3 6).nodes.filter (fun p => decide (p.2 = "yes"))).map
        (fun p => nodeName p.1) =
      ["rabbits_2", "foxes_2", "rabbits_3", "foxes_3", "Treatment", "Outcome"] ∧
    (covariate_observer (taggedRun 7) 3).map (List.map Traced.deps) =
      some [["rabbits_2"], ["foxes_2"], ["rabbits_3"], ["foxes_3"]] :=
  ⟨by decide, rfl⟩

/-! ## Structural invariants of the built graph -/

lemma countP_flatMap {α β : Type} (l : List α) (f : α → List β) (p : β → Bool) :
    (l.flatMap f).countP p = (l.map fun a => (f a).countP p).sum := by
  induction l with
  | nil => rfl
  | cons a l ih =>
      simp [List.flatMap_cons, List.countP_append, ih]

lemma sum_map_ite_eq_count (l : List Nat) (t : Nat) :
    (l.map fun u => if u = t then 1 else 0).sum = l.count t := by
  induction l with
  | nil => rfl
  | cons a l ih =>
      by_cases ha : a = t <;> simp [List.count_cons, ih, ha] <;> omega

lemma nodes_map_fst (time end_time : Nat) :
    (buildGraph time end_time).nodes.map Prod.fst = graphNodes end_time := by
  unfold buildGraph
  rw [List.map_map]
  exact List.map_id _

lemma dynamicsEdges_target_state {e : CNode × CNode} {end_time : Nat}
    (he : e ∈ dynamicsEdges end_time) :
    ∃ v t, t < end_time ∧ e.2 = CNode.stateNode v (t + 1) ∧
      stepOf 0 0 e.1 = t := by
  unfold dynamicsEdges at he
  rw [List.mem_flatMap] at he
  obtain ⟨t, ht, hmem⟩ := he
  rw [List.mem_range] at ht
  simp only [stepEdges, List.mem_cons, List.not_mem_nil, or_false] at hmem
  rcases hmem with h | h | h | h | h | h | h | h <;> subst h <;>
    exact ⟨_, t, ht, rfl, rfl⟩

lemma inEdges_buildGraph_treatment (time end_time : Nat) :
    inEdges (buildGraph time end_time) CNode.treatment =
      [CNode.stateNode "foxes" time] := by
  unfold inEdges buildGraph
  rw [List.filter_append]
  have hdyn : (dynamicsEdges end_time).filter
      (fun e => decide (e.2 = CNode.treatment)) = [] := by
    rw [List.filter_eq_nil_iff]
    intro e he
    obtain ⟨v, t, _, htgt, _⟩ := dynamicsEdges_target_state he
    simp [htgt]
  rw [hdyn]
  rfl

lemma inEdges_buildGraph_outcome (time end_time : Nat) :
    inEdges (buildGraph time end_time) CNode.outcome =
      [CNode.stateNode "foxes" end_time] := by
  unfold inEdges buildGraph
  rw [List.filter_append]
  have hdyn : (dynamicsEdges end_time).filter
      (fun e => decide (e.2 = CNode.outcome)) = [] := by
    rw [List.filter_eq_nil_iff]
    intro e he
    obtain ⟨v, t, _, htgt, _⟩ := dynamicsEdges_target_state he
    simp [htgt]
  rw [hdyn]
  rfl

/-- C2: For every valid experiment shape (intervention time within the
horizon), the built causal graph has exactly one Treatment node and exactly
one Outcome node, no edge goes backward in time, every Treatment in-edge
comes from a node at a step at most the intervention time, and every
Outcome in-edge comes from a node at the final step read by the outcome
extractor. -/
theorem buildGraph_invariants (time end_time : Nat) (h : time ≤ end_time) :
    ((buildGraph time end_time).nodes.countP
        (fun q => decide (q.1 = CNode.treatment))) = 1 ∧
    ((buildGraph time end_time).nodes.countP
        (fun q => decide (q.1 = CNode.outcome))) = 1 ∧
    (∀ e ∈ (buildGraph time end_time).edges,
      stepOf time end_time e.1 ≤ stepOf time end_time e.2) ∧
    (∀ s ∈ inEdges (buildGraph time end_time) CNode.treatment,
      stepOf time end_time s ≤ time) ∧
    (∀ s ∈ inEdges (buildGraph time end_time) CNode.outcome,
      stepOf time end_time s = end_time) := by
  refine ⟨?_, ?_, ?_, ?_, ?_⟩
  · unfold buildGraph
    rw [List.countP_map]
    show (graphNodes end_time).countP (fun n => decide (n = CNode.treatment)) = 1
    unfold graphNodes
    rw [List.countP_append, countP_flatMap]
    have hstep : ∀ u ∈ List.range end_time,
        ((stepNodes u).countP (fun n => decide (n = CNode.treatment))) = 0 := by
      intro u _
      rfl
    rw [List.map_congr_left hstep]
    simp
  · unfold buildGraph
    rw [List.countP_map]
    show (graphNodes end_time).countP (fun n => decide (n = CNode.outcome)) = 1
    unfold graphNodes
    rw [List.countP_append, countP_flatMap]
    have hstep : ∀ u ∈ List.range end_time,
        ((stepNodes u).countP (fun n => decide (n = CNode.outcome))) = 0 := by
      intro u _
      rfl
    rw [List.map_congr_left hstep]
    simp
  · intro e he
    unfold buildGraph at he
    rw [List.mem_append] at he
    rcases he with he | he
    · unfold dynamicsEdges at he
      rw [List.mem_flatMap] at he
      obtain ⟨t, ht, hmem⟩ := he
      simp only [stepEdges, List.mem_cons, List.not_mem_nil, or_false] at hmem
      rcases hmem with hh | hh | hh | hh | hh | hh | hh | hh <;> subst hh <;>
        simp [stepOf]
    · simp only [List.mem_cons, List.not_mem_nil, or_false] at he
      rcases he with hh | hh <;> subst hh <;> simp [stepOf]
  · intro s hs
    rw [inEdges_buildGraph_treatment] at hs
    simp only [List.mem_cons, List.not_mem_nil, or_false] at hs
    subst hs
    simp [stepOf]
  · intro s hs
    rw [inEdges_buildGraph_outcome] at hs
    simp only [List.mem_cons, List.not_mem_nil, or_false] at hs
    subst hs
    simp [stepOf]

/-- Witness for C2: the demonstration experiment, intervention time 3,
horizon 6. -/
theorem buildGraph_invariants_witness :
    (3 : Nat) ≤ 6 ∧
    (((buildGraph 3 6).nodes.countP
        (fun q => decide (q.1 = CNode.treatment))) = 1 ∧
     ((buildGraph 3 6).nodes.countP
        (fun q => decide (q.1 = CNode.outcome))) = 1 ∧
     (∀ e ∈ (buildGraph 3 6).edges, stepOf 3 6 e.1 ≤ stepOf 3 6 e.2) ∧
     (∀ s ∈ inEdges (buildGraph 3 6) CNode.treatment, stepOf 3 6 s ≤ 3) ∧
     (∀ s ∈ inEdges (buildGraph 3 6) CNode.outcome, stepOf 3 6 s = 6)) :=
  ⟨by decide, buildGraph_invariants 3 6 (by decide)⟩

/-- C7 counterexample: moving the intervention step from 3 to 4 does not
merely move parameter nodes — the node list (including every parameter
node) is unchanged, while the non-parameter edge foxes_3 → Treatment is
removed; so some edge other than a parameter edge changes and no parameter
node moves. -/
theorem intervention_step_change_counterexample :
    ((buildGraph 3 6).nodes.map Prod.fst = (buildGraph 4 6).nodes.map Prod.fst) ∧
    ((CNode.stateNode "foxes" 3, CNode.treatment) ∈ (buildGraph 3 6).edges) ∧
    ¬((CNode.stateNode "foxes" 3, CNode.treatment) ∈ (buildGraph 4 6).edges) := by
  decide

/-- C7 (amended): each configuration parameter is represented by a distinct
graph node per time step (each parameter node occurs exactly once); changing
only the intervention target step leaves the node set and all
simulator-dynamics and parameter edges unchanged, and changes only the
Treatment in-edge, which moves from foxes at the old step to foxes at the
new step. -/
theorem intervention_step_change_local (time time' end_time : Nat)
    (h : time ≤ end_time) (h' : time' ≤ end_time) :
    (∀ p ∈ ["rabbit_growth", "rabbit_death", "fox_death", "fox_growth"],
      ∀ t < end_time,
        ((buildGraph time end_time).nodes.countP
          (fun q => decide (q.1 = CNode.paramNode p t))) = 1) ∧
    (buildGraph time end_time).nodes.map Prod.fst =
      (buildGraph time' end_time).nodes.map Prod.fst ∧
    (buildGraph time' end_time).edges =
      (buildGraph time end_time).edges.map (fun e =>
        if e = (CNode.stateNode "foxes" time, CNode.treatment) then
          (CNode.stateNode "foxes" time', CNode.treatment)
        else e) := by
  refine ⟨?_, ?_, ?_⟩
  · intro p hp t ht
    unfold buildGraph
    rw [List.countP_map]
    show (graphNodes end_time).countP
      (fun n => decide (n = CNode.paramNode p t)) = 1
    unfold graphNodes
    rw [List.countP_append, countP_flatMap]
    have htail : ([CNode.stateNode "rabbits" end_time,
        CNode.stateNode "foxes" end_time, CNode.treatment,
        CNode.outcome].countP (fun n => decide (n = CNode.paramNode p t))) = 0 :=
      rfl
    have hstep : ∀ u ∈ List.range end_time,
        ((stepNodes u).countP (fun n => decide (n = CNode.paramNode p t))) =
          if u = t then 1 else 0 := by
      intro u _
      by_cases hu : u = t
      · subst hu
        rw [if_pos rfl]
        simp only [List.mem_cons, List.not_mem_nil, or_false] at hp
        rcases hp with rfl | rfl | rfl | rfl <;>
          simp [stepNodes, List.countP_cons]
      · rw [if_neg hu, List.countP_eq_zero.2]
        intro n hn
        simp only [stepNodes, List.mem_cons, List.not_mem_nil, or_false] at hn
        rcases hn with rfl | rfl | rfl | rfl | rfl | rfl <;> simp <;> omega
    rw [List.map_congr_left hstep, htail, sum_map_ite_eq_count,
      List.count_eq_one_of_mem (List.nodup_range end_time) (List.mem_range.2 ht)]
  · rw [nodes_map_fst, nodes_map_fst]
  · unfold buildGraph
    rw [List.map_append]
    have hdyn : (dynamicsEdges end_time).map (fun e =>
        if e = (CNode.stateNode "foxes" time, CNode.treatment) then
          (CNode.stateNode "foxes" time', CNode.treatment)
        else e) = dynamicsEdges end_time := by
      have : ∀ e ∈ dynamicsEdges end_time,
          (if e = (CNode.stateNode "foxes" time, CNode.treatment) then
            (CNode.stateNode "foxes" time', CNode.treatment)
          else e) = e := by
        intro e he
        obtain ⟨v, t, _, htgt, _⟩ := dynamicsEdges_target_state he
        rw [if_neg]
        intro hcontra
        rw [hcontra] at htgt
        simp at htgt
      rw [List.map_congr_left this]
      exact List.map_id' _
    rw [hdyn]
    simp

/-- Witness for C7 (amended): intervention step moved from 3 to 4 on the
six-step demonstration horizon. -/
theorem intervention_step_change_local_witness :
    ((3 : Nat) ≤ 6 ∧ (4 : Nat) ≤ 6) ∧
    ((∀ p ∈ ["rabbit_growth", "rabbit_death", "fox_death", "fox_growth"],
      ∀ t < 6,
        ((buildGraph 3 6).nodes.countP
          (fun q => decide (q.1 = CNode.paramNode p t))) = 1) ∧
    (buildGraph 3 6).nodes.map Prod.fst = (buildGraph 4 6).nodes.map Prod.fst ∧
    (buildGraph 4 6).edges =
      (buildGraph 3 6).edges.map (fun e =>
        if e = (CNode.stateNode "foxes" 3, CNode.treatment) then
          (CNode.stateNode "foxes" 4, CNode.treatment)
        else e)) :=
  ⟨⟨by decide, by decide⟩,
   intervention_step_change_local 3 4 6 (by decide) (by decide)⟩

/-! ## Run executor

Modelled from the spec (section 4.1): the run executor draws an initial
state, simulates the untreated run, computes and validates the propensity
score, draws the treatment assignment from the single shared pseudo-random
generator, simulates the realized run, and records covariates, treatment,
outcome and true effect per sample.  The generator is an explicit `Nat`
state threaded through every draw, advancing deterministically per sample. -/

/-- Modelled from the spec: one experiment descriptor.  The user-supplied
functions are fields; the pseudo-random generator state is a `Nat` that
every draw consumes and advances. -/
structure DynamicsExperiment (α : Type) where
  end_time : Nat
  intervention_time : Nat
  state_sampler : Nat → State α × Nat
  stepFn : Bool → Nat → State α → State α
  propensity_scorer : List (State α) → α
  rng_uniform : Nat → α × Nat
  outcome_fn : List (State α) → α
  covariate_builder : List (State α) → Option (List α)

/-- The trajectory produced by iterating a step function n more times from
state s at step index t (the state itself included). -/
def trajAux {α : Type} (f : Nat → State α → State α) :
    Nat → State α → Nat → List (State α)
  | _, s, 0 => [s]
  | t, s, n + 1 => s :: trajAux f (t + 1) (f t s) n

/-- Modelled from the spec: executing the simulator over [0, end_time]
(with or without the intervention applied, per the treated flag) yields the
sequence of states indexed 0..end_time. -/
def simulate {α : Type} (e : DynamicsExperiment α) (treated : Bool)
    (s0 : State α) : List (State α) :=
  trajAux (e.stepFn treated) 0 s0 e.end_time

/-- The realized trajectory: intervened when treated, base otherwise. -/
def realizedRun {α : Type} (e : DynamicsExperiment α) (treated : Bool)
    (s0 : State α) : List (State α) :=
  if treated then simulate e true s0 else simulate e false s0

/-- One recorded sample: covariates, treatment flag, outcome, true effect. -/
structure SampleRow (α : Type) where
  covariates : List α
  treatment : Bool
  outcome : α
  true_effect : α
deriving DecidableEq, Repr

/-- Modelled from the spec: per-sample arrays aligned by sample index. -/
structure Dataset (α : Type) where
  covariates : List (List α)
  treatments : List Bool
  outcomes : List α
  true_effects : List α
deriving DecidableEq, Repr

/-- The sampled initial state of the sample started at generator state rng. -/
def drawnState {α : Type} (e : DynamicsExperiment α) (rng : Nat) : State α :=
  (e.state_sampler rng).1

/-- The propensity score of that sample, computed on its untreated run. -/
def propensityOf {α : Type} (e : DynamicsExperiment α) (rng : Nat) : α :=
  e.propensity_scorer (simulate e false (drawnState e rng))

/-- The uniform draw used for the Bernoulli treatment assignment, taken from
the generator after the state sampler advanced it. -/
def uniformDraw {α : Type} (e : DynamicsExperiment α) (rng : Nat) : α :=
  (e.rng_uniform (e.state_sampler rng).2).1

/-- The generator state after one full sample (state draw then treatment
draw): the deterministic per-sample advance of the shared generator. -/
def nextRng {α : Type} (e : DynamicsExperiment α) (rng : Nat) : Nat :=
  (e.rng_uniform (e.state_sampler rng).2).2

/-- The Bernoulli treatment assignment: treated when the uniform draw falls
below the propensity score. -/
def treatedFlag {α : Type} [LinearOrderedRing α] (e : DynamicsExperiment α)
    (rng : Nat) : Bool :=
  decide (uniformDraw e rng < propensityOf e rng)

/-- The realized trajectory of the sample. -/
def sampleRun {α : Type} [LinearOrderedRing α] (e : DynamicsExperiment α)
    (rng : Nat) : List (State α) :=
  realizedRun e (treatedFlag e rng) (drawnState e rng)

/-- Modelled from the spec: one sample of the run executor.  The propensity
score is validated to [0, 1] (a score outside the range is a data-range
error, hence none); the treatment is the Bernoulli draw from the shared
generator; the true effect is the treated-minus-untreated outcome
difference.  Returns the record together with the advanced generator
state. -/
def runSample {α : Type} [LinearOrderedRing α] (e : DynamicsExperiment α)
    (rng : Nat) : Option (SampleRow α) × Nat :=
  (if 0 ≤ propensityOf e rng ∧ propensityOf e rng ≤ 1 then
    (e.covariate_builder (sampleRun e rng)).map (fun cov =>
      ⟨cov, treatedFlag e rng, e.outcome_fn (sampleRun e rng),
       e.outcome_fn (simulate e true (drawnState e rng)) -
         e.outcome_fn (simulate e false (drawnState e rng))⟩)
  else none, nextRng e rng)

/-- Modelled from the spec: the N sample runs executed sequentially with the
shared generator, whose state advances deterministically per sample. -/
def runSamples {α : Type} [LinearOrderedRing α] (e : DynamicsExperiment α) :
    Nat → Nat → Option (List (SampleRow α)) × Nat
  | rng, 0 => (some [], rng)
  | rng, n + 1 =>
    (match (runSample e rng).1, (runSamples e (runSample e rng).2 n).1 with
     | some row, some rest => some (row :: rest)
     | _, _ => none,
     (runSamples e (runSample e rng).2 n).2)

/-- Modelled from the spec: `run(experiment, num_samples)` collects the
per-sample records into the dataset arrays, aligned by sample index. -/
def DynamicsExperiment.run {α : Type} [LinearOrderedRing α]
    (e : DynamicsExperiment α) (num_samples : Nat) (rng : Nat) :
    Option (Dataset α) :=
  ((runSamples e rng num_samples).1).map (fun rows =>
    ⟨rows.map SampleRow.covariates, rows.map SampleRow.treatment,
     rows.map SampleRow.outcome, rows.map SampleRow.true_effect⟩)

lemma trajAux_length {α : Type} (f : Nat → State α → State α) :
    ∀ (n t : Nat) (s : State α), (trajAux f t s n).length = n + 1 := by
  intro n
  induction n with
  | zero => intro t s; rfl
  | succ m ih => intro t s; simp [trajAux, ih]

lemma simulate_length {α : Type} (e : DynamicsExperiment α) (treated : Bool)
    (s0 : State α) : (simulate e treated s0).length = e.end_time + 1 :=
  trajAux_length _ _ _ _

lemma realizedRun_length {α : Type} (e : DynamicsExperiment α)
    (treated : Bool) (s0 : State α) :
    (realizedRun e treated s0).length = e.end_time + 1 := by
  unfold realizedRun
  by_cases h : treated <;> simp [h, simulate_length]

lemma covariate_observer_shape {α : Type} (run : Trajectory α)
    (end_time time : Nat) (htime : time ≤ end_time)
    (hlen : (run : List (State α)).length = end_time + 1) :
    ∃ prev curr : State α,
      covariate_observer run time = some (prev.values ++ curr.values) := by
  have hprev : prevIndex time ≤ time := by unfold prevIndex; omega
  have h1 : time < (run : List (State α)).length := by omega
  have h0 : prevIndex time < (run : List (State α)).length := by omega
  refine ⟨(run : List (State α)).get ⟨prevIndex time, h0⟩,
    (run : List (State α)).get ⟨time, h1⟩, ?_⟩
  unfold covariate_observer
  rw [List.get?_eq_get h0, List.get?_eq_get h1]

lemma runSample_shape {α : Type} [LinearOrderedRing α]
    (e : DynamicsExperiment α)
    (hcov : e.covariate_builder =
      fun run => covariate_observer run e.intervention_time)
    (hit : e.intervention_time ≤ e.end_time)
    (hp : ∀ run, 0 ≤ e.propensity_scorer run ∧ e.propensity_scorer run ≤ 1)
    (rng : Nat) :
    ∃ (row : SampleRow α) (r' : Nat), runSample e rng = (some row, r') ∧
      ∃ prev curr : State α, row.covariates = prev.values ++ curr.values := by
  have hlen : (sampleRun e rng).length = e.end_time + 1 :=
    realizedRun_length e _ _
  obtain ⟨prev, curr, hobs⟩ := covariate_observer_shape
    (sampleRun e rng) e.end_time e.intervention_time hit hlen
  have hcond : 0 ≤ propensityOf e rng ∧ propensityOf e rng ≤ 1 := hp _
  refine ⟨⟨prev.values ++ curr.values, treatedFlag e rng,
      e.outcome_fn (sampleRun e rng),
      e.outcome_fn (simulate e true (drawnState e rng)) -
        e.outcome_fn (simulate e false (drawnState e rng))⟩,
    nextRng e rng, ?_, prev, curr, rfl⟩
  unfold runSample
  rw [if_pos hcond]
  simp only [hcov]
  rw [hobs]
  rfl

lemma runSamples_shape {α : Type} [LinearOrderedRing α]
    (e : DynamicsExperiment α)
    (hcov : e.covariate_builder =
      fun run => covariate_observer run e.intervention_time)
    (hit : e.intervention_time ≤ e.end_time)
    (hp : ∀ run, 0 ≤ e.propensity_scorer run ∧ e.propensity_scorer run ≤ 1)
    (n : Nat) : ∀ rng : Nat,
    ∃ (rows : List (SampleRow α)) (r' : Nat),
      runSamples e rng n = (some rows, r') ∧ rows.length = n ∧
      ∀ row ∈ rows, ∃ prev curr : State α,
        row.covariates = prev.values ++ curr.values := by
  induction n with
  | zero =>
      intro rng
      exact ⟨[], rng, rfl, rfl, by intro row hrow; cases hrow⟩
  | succ m ih =>
      intro rng
      obtain ⟨row, r1, hrow, prev, curr, hc⟩ := runSample_shape e hcov hit hp rng
      obtain ⟨rows, r2, hrows, hlen, hall⟩ := ih (runSample e rng).2
      refine ⟨row :: rows, r2, ?_, by simp [hlen], ?_⟩
      · simp only [runSamples]
        rw [hrow] at hrows ⊢
        rw [hrows]
      · intro x hx
        rcases List.mem_cons.1 hx with rfl | hx'
        · exact ⟨prev, curr, hc⟩
        · exact hall x hx'

/-- C4: For every sample of a valid experiment whose covariate builder is
covariate_observer, the dataset row has exactly as many entries as
graph.covariate_names, and the entries are the full state at the earlier
step followed by the full state at the intervention step — the exact
concatenation order named by covariate_names. -/
theorem run_covariate_columns {α : Type} [LinearOrderedRing α]
    (e : DynamicsExperiment α) (num_samples rng : Nat)
    (hcov : e.covariate_builder =
      fun run => covariate_observer run e.intervention_time)
    (hit : e.intervention_time ≤ e.end_time)
    (hp : ∀ run, 0 ≤ e.propensity_scorer run ∧ e.propensity_scorer run ≤ 1) :
    ∃ d : Dataset α, e.run num_samples rng = some d ∧
      d.covariates.length = num_samples ∧
      ∃ names,
        (buildGraph e.intervention_time e.end_time).covariate_names =
          some names ∧
        names = covariateNames e.intervention_time ∧
        ∀ row ∈ d.covariates, row.length = names.length ∧
          ∃ prev curr : State α, row = prev.values ++ curr.values := by
  obtain ⟨rows, r', hrows, hlen, hall⟩ :=
    runSamples_shape e hcov hit hp num_samples rng
  refine ⟨⟨rows.map SampleRow.covariates, rows.map SampleRow.treatment,
      rows.map SampleRow.outcome, rows.map SampleRow.true_effect⟩, ?_,
    by simp [hlen], covariateNames e.intervention_time, rfl, rfl, ?_⟩
  · unfold DynamicsExperiment.run
    rw [hrows]
    rfl
  · intro row hrow
    rw [List.mem_map] at hrow
    obtain ⟨srow, hsrow, rfl⟩ := hrow
    obtain ⟨prev, curr, hshape⟩ := hall srow hsrow
    refine ⟨?_, prev, curr, hshape⟩
    rw [hshape]
    simp [State.values, covariateNames]

/-- A concrete executable experiment over the integers, exercising the
executor model: two simulated steps, intervention at step 1,
covariate_observer as covariate builder, constant propensity 1. -/
def demoExecExperiment : DynamicsExperiment ℤ :=
  { end_time := 2
    intervention_time := 1
    state_sampler := fun r => (State.mk ((r : ℤ) + 10) ((r : ℤ) + 1), r + 1)
    stepFn := fun treated t s =>
      State.mk (s.rabbits + s.foxes)
        (if treated && decide (1 ≤ t) then s.foxes - 2 else s.foxes + 1)
    propensity_scorer := fun _ => 1
    rng_uniform := fun r => (if r % 2 = 0 then 0 else 1, r + 1)
    outcome_fn := fun run => ((run.get? 2).map State.foxes).getD 0
    covariate_builder := fun run => covariate_observer run 1 }

/-- Witness for C4: the concrete integer experiment, three samples. -/
theorem run_covariate_columns_witness :
    (demoExecExperiment.covariate_builder =
      (fun run => covariate_observer run demoExecExperiment.intervention_time) ∧
     demoExecExperiment.intervention_time ≤ demoExecExperiment.end_time ∧
     (∀ run, 0 ≤ demoExecExperiment.propensity_scorer run ∧
       demoExecExperiment.propensity_scorer run ≤ 1)) ∧
    (∃ d : Dataset ℤ, demoExecExperiment.run 3 7 = some d ∧
      d.covariates.length = 3 ∧
      ∃ names,
        (buildGraph demoExecExperiment.intervention_time
          demoExecExperiment.end_time).covariate_names = some names ∧
        names = covariateNames demoExecExperiment.intervention_time ∧
        ∀ row ∈ d.covariates, row.length = names.length ∧
          ∃ prev curr : State ℤ, row = prev.values ++ curr.values) :=
  ⟨⟨rfl, by decide,
    by intro run; show (0 : ℤ) ≤ 1 ∧ (1 : ℤ) ≤ 1; exact ⟨by decide, by decide⟩⟩,
   run_covariate_columns demoExecExperiment 3 7 rfl (by decide)
     (by intro run; show (0 : ℤ) ≤ 1 ∧ (1 : ℤ) ≤ 1; exact ⟨by decide, by decide⟩)⟩

/-- C9: Running the experiment twice with an identical seed for the single
shared pseudo-random generator produces an identical dataset — the same
covariates, treatments, outcomes and true_effects, sample by sample. -/
theorem run_same_seed_same_dataset {α : Type} [LinearOrderedRing α]
    (e : DynamicsExperiment α) (num_samples r1 r2 : Nat) (hseed : r1 = r2)
    (d1 d2 : Dataset α)
    (h1 : e.run num_samples r1 = some d1)
    (h2 : e.run num_samples r2 = some d2) :
    d1.covariates = d2.covariates ∧ d1.treatments = d2.treatments ∧
    d1.outcomes = d2.outcomes ∧ d1.true_effects = d2.true_effects := by
  subst hseed
  rw [h1] at h2
  cases Option.some.inj h2
  exact ⟨rfl, rfl, rfl, rfl⟩

/-- Witness for C9: the concrete integer experiment run twice from seed 42. -/
theorem run_same_seed_same_dataset_witness :
    ((42 : Nat) = 42 ∧
     demoExecExperiment.run 2 42 =
       some ((demoExecExperiment.run 2 42).getD (Dataset.mk [] [] [] [])) ∧
     demoExecExperiment.run 2 42 =
       some ((demoExecExperiment.run 2 42).getD (Dataset.mk [] [] [] []))) ∧
    (((demoExecExperiment.run 2 42).getD (Dataset.mk [] [] [] [])).covariates =
       ((demoExecExperiment.run 2 42).getD (Dataset.mk [] [] [] [])).covariates ∧
     ((demoExecExperiment.run 2 42).getD (Dataset.mk [] [] [] [])).treatments =
       ((demoExecExperiment.run 2 42).getD (Dataset.mk [] [] [] [])).treatments ∧
     ((demoExecExperiment.run 2 42).getD (Dataset.mk [] [] [] [])).outcomes =
       ((demoExecExperiment.run 2 42).getD (Dataset.mk [] [] [] [])).outcomes ∧
     ((demoExecExperiment.run 2 42).getD (Dataset.mk [] [] [] [])).true_effects =
       ((demoExecExperiment.run 2 42).getD (Dataset.mk [] [] [] [])).true_effects) :=
  ⟨⟨rfl, by decide, by decide⟩,
   run_same_seed_same_dataset demoExecExperiment 2 42 42 rfl _ _
     (by decide) (by decide)⟩

/-! ## Export preparation and GML round trip

The notebook export cell reads:
  graphcopy = copy.deepcopy(graph)
  graphcopy.add_edges_from([("Treatment", "Outcome")])
  del graphcopy.graph["covariate_names"]
  nx.write_gml(graphcopy, "assets/lotka_volterra_graph.gml")
Python variables are references into a heap of mutable graph objects, so the
cell is modelled over an explicit store: deepcopy allocates a fresh object
and the two mutations hit only the copy. -/

/-- Python deepcopy: allocate a fresh heap cell holding a copy of the object
at reference i, and return the new reference. -/
def deepcopyAlloc (store : List CGraph) (i : Nat) : List CGraph × Nat :=
  (store ++ [store.getD i default], store.length)

/-- The add_edges_from([("Treatment", "Outcome")]) mutation: DoWhy expects a
direct Treatment → Outcome edge. -/
def addTreatmentOutcomeEdge (g : CGraph) : CGraph :=
  ⟨g.nodes, g.edges ++ [(CNode.treatment, CNode.outcome)], g.covariate_names⟩

/-- The del graphcopy.graph["covariate_names"] mutation: the list-valued
graph attribute is dropped before writing, since the GML format does not
support it. -/
def delCovariateNames (g : CGraph) : CGraph :=
  ⟨g.nodes, g.edges, none⟩

/-- The export cell run over the store: deepcopy the graph at gref, mutate
the copy in place, and return the final store, the reference of the copy,
and the graph written to the GML file. -/
def exportCell (store : List CGraph) (gref : Nat) :
    List CGraph × Nat × CGraph :=
  let (store1, cref) := deepcopyAlloc store gref
  let store2 := store1.set cref
    (delCovariateNames (addTreatmentOutcomeEdge (store1.getD cref default)))
  (store2, cref, store2.getD cref default)

/-- C5: the export preparation adds the Treatment → Outcome edge and deletes
covariate_names on a deep copy only: after the cell runs, the original graph
object is unchanged — its covariate_names attribute is still present — while
the graph written to the GML file is the mutated copy. -/
theorem exportCell_preserves_original (store : List CGraph) (gref : Nat)
    (g : CGraph) (hg : store.get? gref = some g) :
    (exportCell store gref).1.get? gref = some g ∧
    ((exportCell store gref).1.get? gref).map CGraph.covariate_names =
      some g.covariate_names ∧
    (exportCell store gref).2.2.nodes = g.nodes ∧
    (exportCell store gref).2.2.edges =
      g.edges ++ [(CNode.treatment, CNode.outcome)] ∧
    (exportCell store gref).2.2.covariate_names = none := by
  have hlt : gref < store.length := by
    by_contra hge
    rw [List.get?_eq_none.2 (by omega)] at hg
    cases hg
  have hne : store.length ≠ gref := by omega
  have hcopy : store.getD gref default = g := by
    rw [List.getD_eq_getD_get?, hg]
    rfl
  have hget1 : (store ++ [store.getD gref default]).getD store.length default =
      store.getD gref default := by
    rw [List.getD_eq_getD_get?, List.get?_append_right (le_refl _)]
    simp
  have horig : (exportCell store gref).1.get? gref = some g := by
    show ((store ++ [store.getD gref default]).set store.length _).get? gref =
      some g
    rw [List.get?_set_ne _ _ hne, List.get?_append hlt, hg]
  have hlen1 : store.length < (store ++ [store.getD gref default]).length := by
    simp
  have hwritten : (exportCell store gref).2.2 =
      delCovariateNames (addTreatmentOutcomeEdge g) := by
    show ((store ++ [store.getD gref default]).set store.length
        (delCovariateNames (addTreatmentOutcomeEdge
          ((store ++ [store.getD gref default]).getD store.length
            default)))).getD store.length default =
      delCovariateNames (addTreatmentOutcomeEdge g)
    rw [hget1, hcopy, List.getD_eq_getD_get?]
    rw [List.get?_set_eq_of_lt _
      (show store.length < (store ++ [g]).length by simp)]
    rfl
  exact ⟨horig, by rw [horig]; rfl, by rw [hwritten]; rfl,
    by rw [hwritten]; rfl, by rw [hwritten]; rfl⟩

/-- Witness for C5: the export cell run on a one-object heap holding the
demonstration graph. -/
theorem exportCell_preserves_original_witness :
    ([buildGraph 3 6].get? 0 = some (buildGraph 3 6)) ∧
    ((exportCell [buildGraph 3 6] 0).1.get? 0 = some (buildGraph 3 6) ∧
     ((exportCell [buildGraph 3 6] 0).1.get? 0).map CGraph.covariate_names =
       some (buildGraph 3 6).covariate_names ∧
     (exportCell [buildGraph 3 6] 0).2.2.nodes = (buildGraph 3 6).nodes ∧
     (exportCell [buildGraph 3 6] 0).2.2.edges =
       (buildGraph 3 6).edges ++ [(CNode.treatment, CNode.outcome)] ∧
     (exportCell [buildGraph 3 6] 0).2.2.covariate_names = none) :=
  ⟨rfl, exportCell_preserves_original [buildGraph 3 6] 0 (buildGraph 3 6) rfl⟩

/-! ## Textual (GML) round trip -/

/-- Modelled from the spec: the persisted artifact, a textual graph document
keyed by node name — per-node records carrying the observed attribute, and
an edge list of name pairs.  The format has no slot for list-valued
graph-level attributes such as covariate_names. -/
structure GMLDoc where
  gnodes : List (String × String)
  gedges : List (String × String)
deriving DecidableEq, Repr

/-- Modelled from the spec: writing a graph to the textual format drops the
graph-level covariate_names attribute and keys everything by node name. -/
def write_gml (g : CGraph) : GMLDoc :=
  ⟨g.nodes.map (fun p => (nodeName p.1, p.2)),
   g.edges.map (fun e => (nodeName e.1, nodeName e.2))⟩

/-- A graph as reloaded from disk: keyed by node-name strings, with no
graph-level attributes. -/
structure StrGraph where
  nodes : List (String × String)
  edges : List (String × String)
  covariate_names : Option (List String)
deriving DecidableEq, Repr

/-- Modelled from the spec: reloading the textual document yields the
name-keyed graph; graph-level attributes are absent and must be reattached
by the consumer. -/
def read_gml (d : GMLDoc) : StrGraph :=
  ⟨d.gnodes, d.gedges, none⟩

/-- C6: Exporting a causal graph to the textual format and reloading yields
a graph with the same node set, the same edge set and the same observed
attribute on every node (all read through the node-name keying), while
graph-level list attributes such as covariate_names are not preserved. -/
theorem gml_round_trip (g : CGraph) :
    (read_gml (write_gml g)).nodes = g.nodes.map (fun p => (nodeName p.1, p.2)) ∧
    (read_gml (write_gml g)).edges =
      g.edges.map (fun e => (nodeName e.1, nodeName e.2)) ∧
    (∀ n a, (n, a) ∈ g.nodes → (nodeName n, a) ∈ (read_gml (write_gml g)).nodes) ∧
    (read_gml (write_gml g)).covariate_names = none := by
  refine ⟨rfl, rfl, ?_, rfl⟩
  intro n a h
  exact List.mem_map_of_mem _ h

end WhyNot


